import Mathlib

/-!
Two triangles, red and blue.

A shallow embedding of `main` from `Two triangles, red and blue.cpp`.

* Scalars (`float`, `double`) are elements of a field `α`; the theorems about exact
  arithmetic instantiate `α` with `ℝ` or `ℚ`.
* The C math library (`cos`, `sin`, `sqrt`) is a parameter, `Libm α`; over `ℝ` it is
  instantiated with `Real.cos`, `Real.sin`, `Real.sqrt`.
* `glm::vec3`, `glm::mat4` and the GLM functions `main` calls on them are written out
  following the GLM headers (`mat4` is indexed row, column in the mathematical sense,
  so `Result[c][r]` of GLM is entry `r c` here).
* OpenGL / GLFW calls are a command trace (`Cmd`), with a small state machine
  (`GLState`, `exec`) recording which program and buffers a draw call sees.
-/

namespace TwoTriangles

/-! ## Scalars, vectors, matrices -/

/-- The functions of the C math library that the program reaches. -/
structure Libm (α : Type) where
  cos : α → α
  sin : α → α
  sqrt : α → α

/-- Type `glm::vec3`. -/
structure vec3 (α : Type) where
  x : α
  y : α
  z : α
deriving DecidableEq, Repr

/-- Type `glm::mat4`; entry `M r c` is row `r`, column `c`. -/
abbrev mat4 (α : Type) := Matrix (Fin 4) (Fin 4) α

namespace vec3

variable {α : Type} [Field α]

/-- Operator `-` on `glm::vec3`. -/
def sub (a b : vec3 α) : vec3 α := ⟨a.x - b.x, a.y - b.y, a.z - b.z⟩

/-- Operator `*` of a `glm::vec3` with a scalar. -/
def smul (a : vec3 α) (k : α) : vec3 α := ⟨a.x * k, a.y * k, a.z * k⟩

/-- Function `glm::dot`. -/
def dot (a b : vec3 α) : α := a.x * b.x + a.y * b.y + a.z * b.z

/-- Function `glm::cross`. -/
def cross (a b : vec3 α) : vec3 α :=
  ⟨a.y * b.z - b.y * a.z, a.z * b.x - b.z * a.x, a.x * b.y - b.x * a.y⟩

/-- Function `glm::length`: `sqrt(dot(v, v))`. -/
def length (L : Libm α) (v : vec3 α) : α := L.sqrt (dot v v)

/-- Function `glm::inversesqrt`: `1 / sqrt(x)`. -/
def inversesqrt (L : Libm α) (x : α) : α := 1 / L.sqrt x

/-- Function `glm::normalize`: `v * inversesqrt(dot(v, v))`. -/
def normalize (L : Libm α) (v : vec3 α) : vec3 α := smul v (inversesqrt L (dot v v))

end vec3

variable {α : Type} [Field α]

/-- The viewing direction before normalisation inside `glm::lookAt`: `center - eye`. -/
def lookAtDir (eye center : vec3 α) : vec3 α := vec3.sub center eye

/-- The vector `f` of `glm::lookAt`: `normalize(center - eye)`. -/
def lookAtF (L : Libm α) (eye center : vec3 α) : vec3 α :=
  vec3.normalize L (lookAtDir eye center)

/-- The side vector before normalisation inside `glm::lookAt`: `cross(f, up)`. -/
def lookAtSide (L : Libm α) (eye center up : vec3 α) : vec3 α :=
  vec3.cross (lookAtF L eye center) up

/-- The vector `s` of `glm::lookAt`: `normalize(cross(f, up))`. -/
def lookAtS (L : Libm α) (eye center up : vec3 α) : vec3 α :=
  vec3.normalize L (lookAtSide L eye center up)

/-- The vector `u` of `glm::lookAt`: `cross(s, f)`. -/
def lookAtU (L : Libm α) (eye center up : vec3 α) : vec3 α :=
  vec3.cross (lookAtS L eye center up) (lookAtF L eye center)

/-- Function `glm::lookAt` (right-handed, the GLM default). -/
def lookAt (L : Libm α) (eye center up : vec3 α) : mat4 α :=
  let f := lookAtF L eye center
  let s := lookAtS L eye center up
  let u := lookAtU L eye center up
  !![s.x, s.y, s.z, -(vec3.dot s eye);
     u.x, u.y, u.z, -(vec3.dot u eye);
     -f.x, -f.y, -f.z, vec3.dot f eye;
     0, 0, 0, 1]

/-! ## Constants of `main` -/

/-- Local `speed` of `main` (line 109). -/
def speed : α := 1

/-- Local `radius` of `main` (line 110). -/
def radius : α := 7

/-- The field of view, in degrees, handed to `glm::radians` (line 82). -/
def fovDegrees : α := 45

/-- The aspect-ratio argument of `glm::perspective` (line 82): `16.0f / 9.0f`. -/
def aspect : α := 16 / 9

/-- The near-plane argument of `glm::perspective` (line 82): `0.1f`. -/
def zNear : α := 1 / 10

/-- The far-plane argument of `glm::perspective` (line 82): `100.0f`. -/
def zFar : α := 100

/-- Local `Projection` of `main` (line 82); `perspective` and `radians` are the GLM
functions of those names. -/
def Projection (perspective : α → α → α → α → mat4 α) (radians : α → α) : mat4 α :=
  perspective (radians fovDegrees) aspect zNear zFar

/-- Local `Model` of `main` (line 84): `glm::mat4(1.0f)`. -/
def Model : mat4 α := 1

/-- Array `g_vertex_buffer_data_first` (lines 86-90). -/
def g_vertex_buffer_data_first : List α :=
  [1, -1, 1 / 100,
   -1, 1, 1 / 100,
   3 / 10, -1, 1 / 100]

/-- Array `g_vertex_buffer_data_second` (lines 92-96). -/
def g_vertex_buffer_data_second : List α :=
  [-1, -1, -(1 / 100),
   1, 1, -(1 / 100),
   -(3 / 10), -1, -(1 / 100)]

/-! ## The per-frame camera computation -/

/-- The locals of `main` that are declared before the loop and assigned inside it. -/
structure LoopState (α : Type) where
  position : vec3 α
  angle : α
  ViewMatrix : mat4 α
  lastTime : α

/-- The locals on entry to the loop (lines 106-113): `t0` is the value `glfwGetTime()`
returns on line 113, `vm0` the uninitialised `ViewMatrix`. -/
def initialState (vm0 : mat4 α) (t0 : α) : LoopState α :=
  { position := ⟨0, 0, 7⟩, angle := 0, ViewMatrix := vm0, lastTime := t0 }

/-- The right-hand side of line 126. -/
def orbitPosition (L : Libm α) (angle : α) : vec3 α :=
  ⟨radius * L.cos angle, 0, radius * L.sin angle⟩

/-- Lines 121-136 of the loop body; `currentTime` is the value `glfwGetTime()` returns
on line 121. -/
def frame (L : Libm α) (s : LoopState α) (currentTime : α) : LoopState α :=
  let deltaTime := currentTime - s.lastTime
  let angle := s.angle + deltaTime * speed
  let position := orbitPosition L angle
  let ViewMatrix := lookAt L position ⟨0, 0, 0⟩ ⟨0, 1, 0⟩
  { position := position, angle := angle, ViewMatrix := ViewMatrix, lastTime := currentTime }

/-- Local `MVP` of the loop body (line 139). -/
def MVP (Proj : mat4 α) (s : LoopState α) : mat4 α := Proj * s.ViewMatrix * Model

/-- The locals after the frames that read the times `ts`, in order. -/
def runFrames (L : Libm α) (s : LoopState α) (ts : List α) : LoopState α :=
  ts.foldl (frame L) s

/-! ## The OpenGL / GLFW command trace -/

/-- The values `main` holds for GL objects and uniform locations: what
`glGenVertexArrays`, `LoadShaders`, `glGetUniformLocation` and `glGenBuffers` returned. -/
structure Names where
  VertexArrayID : ℕ
  redTriangle : ℕ
  blueTriangle : ℕ
  redVertexes : ℕ
  blueVertexes : ℕ
  vertexbuffer0 : ℕ
  vertexbuffer1 : ℕ
deriving DecidableEq, Repr

/-- The shader files named on lines 74-75. -/
inductive ShaderFile
  | SimpleTransform_vertexshader
  | RedTriangle_fragmentshader
  | BlueTriangle_fragmentshader
deriving DecidableEq, Repr

/-- The primitive modes of `glDrawArrays` (only `GL_TRIANGLES` is used by `main`). -/
inductive DrawMode
  | GL_POINTS
  | GL_LINES
  | GL_TRIANGLES
deriving DecidableEq, Repr

/-- The calls `main` makes from line 58 on, with the arguments that matter here; a call
that returns object names carries them as `result`. Buffer commands act on the target
`GL_ARRAY_BUFFER`; `glGetUniformLocation` asks for the uniform named `MVP`. The queries
`glfwGetTime`, `glfwGetKey` and `glfwWindowShouldClose` are not calls of the trace: the
times they return are the inputs `t0`, `t1`, `ts` of `mainCmds`, and the loop condition
is what ends the list `ts`. -/
inductive Cmd (α : Type)
  | glClearColor
  | glEnableDepthTest
  | glDepthFunc
  | glEnableBlend
  | glBlendFunc
  | glGenVertexArrays (result : ℕ)
  | glBindVertexArray (array : ℕ)
  | LoadShaders (vertex fragment : ShaderFile) (result : ℕ)
  | glGetUniformLocation (program : ℕ) (result : ℕ)
  | glGenBuffers (result : List ℕ)
  | glBindBuffer (buffer : ℕ)
  | glBufferData (data : List α)
  | glClear
  | glUseProgram (program : ℕ)
  | glUniformMatrix4fv (location : ℕ) (value : mat4 α)
  | glEnableVertexAttribArray (index : ℕ)
  | glVertexAttribPointer (index size : ℕ)
  | glDrawArrays (mode : DrawMode) (first count : ℕ)
  | glDisableVertexAttribArray (index : ℕ)
  | glfwSwapBuffers
  | glfwPollEvents
  | glDeleteBuffers (buffers : List ℕ)
  | glDeleteProgram (program : ℕ)
  | glDeleteVertexArrays (array : ℕ)
  | glfwTerminate

/-- A GL object: its kind and its name (each kind has its own name space). -/
inductive Obj
  | vertexArray (name : ℕ)
  | program (name : ℕ)
  | buffer (name : ℕ)
deriving DecidableEq, Repr

namespace Cmd

/-- The objects a call creates. -/
def creates : Cmd α → List Obj
  | glGenVertexArrays r => [Obj.vertexArray r]
  | LoadShaders _ _ r => [Obj.program r]
  | glGenBuffers rs => rs.map Obj.buffer
  | _ => []

/-- The objects a call deletes. -/
def deletes : Cmd α → List Obj
  | glDeleteBuffers bs => bs.map Obj.buffer
  | glDeleteProgram p => [Obj.program p]
  | glDeleteVertexArrays a => [Obj.vertexArray a]
  | _ => []

/-- The existing objects a call names in its arguments. -/
def uses : Cmd α → List Obj
  | glBindVertexArray a => [Obj.vertexArray a]
  | glGetUniformLocation p _ => [Obj.program p]
  | glBindBuffer b => [Obj.buffer b]
  | glUseProgram p => [Obj.program p]
  | glDeleteBuffers bs => bs.map Obj.buffer
  | glDeleteProgram p => [Obj.program p]
  | glDeleteVertexArrays a => [Obj.vertexArray a]
  | _ => []

/-- Whether the call is a draw call. -/
def isDraw : Cmd α → Bool
  | glDrawArrays _ _ _ => true
  | _ => false

/-- Whether the call is one of the `glDelete*` calls. -/
def isDelete : Cmd α → Bool
  | glDeleteBuffers _ => true
  | glDeleteProgram _ => true
  | glDeleteVertexArrays _ => true
  | _ => false

/-- Whether the call is `glfwTerminate`. -/
def isTerminate : Cmd α → Bool
  | glfwTerminate => true
  | _ => false

end Cmd

/-- Lines 58-104: GL state, vertex array, the two programs and the two vertex buffers. -/
def setupCmds (N : Names) : List (Cmd α) :=
  [ Cmd.glClearColor,
    Cmd.glEnableDepthTest,
    Cmd.glDepthFunc,
    Cmd.glEnableBlend,
    Cmd.glBlendFunc,
    Cmd.glGenVertexArrays N.VertexArrayID,
    Cmd.glBindVertexArray N.VertexArrayID,
    Cmd.LoadShaders ShaderFile.SimpleTransform_vertexshader
      ShaderFile.RedTriangle_fragmentshader N.redTriangle,
    Cmd.LoadShaders ShaderFile.SimpleTransform_vertexshader
      ShaderFile.BlueTriangle_fragmentshader N.blueTriangle,
    Cmd.glGetUniformLocation N.redTriangle N.redVertexes,
    Cmd.glGetUniformLocation N.blueTriangle N.blueVertexes,
    Cmd.glGenBuffers [N.vertexbuffer0, N.vertexbuffer1],
    Cmd.glBindBuffer N.vertexbuffer0,
    Cmd.glBufferData g_vertex_buffer_data_first,
    Cmd.glBindBuffer N.vertexbuffer1,
    Cmd.glBufferData g_vertex_buffer_data_second ]

/-- The GL / GLFW calls of one loop iteration (lines 118-187), given the `MVP` computed
on line 139. -/
def frameCmds (N : Names) (mvp : mat4 α) : List (Cmd α) :=
  [ Cmd.glClear,
    Cmd.glUseProgram N.redTriangle,
    Cmd.glUniformMatrix4fv N.redVertexes mvp,
    Cmd.glEnableVertexAttribArray 0,
    Cmd.glBindBuffer N.vertexbuffer0,
    Cmd.glVertexAttribPointer 0 3,
    Cmd.glDrawArrays DrawMode.GL_TRIANGLES 0 3,
    Cmd.glUseProgram N.blueTriangle,
    Cmd.glUniformMatrix4fv N.blueVertexes mvp,
    Cmd.glEnableVertexAttribArray 0,
    Cmd.glBindBuffer N.vertexbuffer1,
    Cmd.glVertexAttribPointer 0 3,
    Cmd.glDrawArrays DrawMode.GL_TRIANGLES 0 3,
    Cmd.glDisableVertexAttribArray 0,
    Cmd.glfwSwapBuffers,
    Cmd.glfwPollEvents ]

/-- Lines 194-200: the cleanup after the loop. -/
def cleanupCmds (N : Names) : List (Cmd α) :=
  [ Cmd.glDeleteBuffers [N.vertexbuffer0, N.vertexbuffer1],
    Cmd.glDeleteProgram N.redTriangle,
    Cmd.glDeleteProgram N.blueTriangle,
    Cmd.glDeleteVertexArrays N.VertexArrayID,
    Cmd.glfwTerminate ]

/-- The calls of one loop iteration that starts with the locals `s` and reads the time
`currentTime`. -/
def iterationCmds (L : Libm α) (Proj : mat4 α) (N : Names) (s : LoopState α)
    (currentTime : α) : List (Cmd α) :=
  frameCmds N (MVP Proj (frame L s currentTime))

/-- The calls of the iterations that read the times `ts`, in order, starting with the
locals `s`. -/
def loopCmds (L : Libm α) (Proj : mat4 α) (N : Names) : LoopState α → List α → List (Cmd α)
  | _, [] => []
  | s, t :: ts => iterationCmds L Proj N s t ++ loopCmds L Proj N (frame L s t) ts

/-- The calls of a run of `main` on its normal exit path, from line 58 on. The loop is a
`do`-`while`, so it has a first iteration, which reads the time `t1`; `ts` are the times
read by the later iterations, `t0` is the time read on line 113. -/
def mainCmds (L : Libm α) (perspective : α → α → α → α → mat4 α) (radians : α → α)
    (N : Names) (vm0 : mat4 α) (t0 t1 : α) (ts : List α) : List (Cmd α) :=
  setupCmds N
    ++ loopCmds L (Projection perspective radians) N (initialState vm0 t0) (t1 :: ts)
    ++ cleanupCmds N

/-! ## The GL state a draw call sees -/

/-- What a draw call was issued with. -/
structure DrawCall (α : Type) where
  mode : DrawMode
  first : ℕ
  count : ℕ
  program : ℕ
  attribEnabled : ℕ → Bool
  attribBuffer : ℕ → ℕ
  uniform : ℕ → Option (mat4 α)

/-- The part of the GL state that decides what a draw call draws: the program in use,
the buffer bound to `GL_ARRAY_BUFFER`, per vertex attribute whether it is enabled and
which buffer `glVertexAttribPointer` attached to it, per program and location the matrix
last uploaded, and the draw calls issued so far. -/
structure GLState (α : Type) where
  program : ℕ
  arrayBuffer : ℕ
  attribEnabled : ℕ → Bool
  attribBuffer : ℕ → ℕ
  uniform : ℕ → ℕ → Option (mat4 α)
  draws : List (DrawCall α)

/-- The effect of one call on the GL state. -/
def exec (g : GLState α) : Cmd α → GLState α
  | Cmd.glUseProgram p => { g with program := p }
  | Cmd.glUniformMatrix4fv loc m =>
      { g with uniform := Function.update g.uniform g.program
                            (Function.update (g.uniform g.program) loc (some m)) }
  | Cmd.glEnableVertexAttribArray i =>
      { g with attribEnabled := Function.update g.attribEnabled i true }
  | Cmd.glDisableVertexAttribArray i =>
      { g with attribEnabled := Function.update g.attribEnabled i false }
  | Cmd.glBindBuffer b => { g with arrayBuffer := b }
  | Cmd.glVertexAttribPointer i _ =>
      { g with attribBuffer := Function.update g.attribBuffer i g.arrayBuffer }
  | Cmd.glDrawArrays mode first count =>
      { g with draws := g.draws ++
          [{ mode := mode, first := first, count := count, program := g.program,
             attribEnabled := g.attribEnabled, attribBuffer := g.attribBuffer,
             uniform := g.uniform g.program }] }
  | _ => g

/-- The effect of a sequence of calls on the GL state. -/
def execAll (g : GLState α) (cs : List (Cmd α)) : GLState α := cs.foldl exec g

/-! ## The triangles in the plane -/

/-- A point of the plane. -/
structure vec2 (α : Type) where
  x : α
  y : α
deriving DecidableEq, Repr

/-- The `x`, `y` coordinates of vertex `i` of a vertex buffer of `x, y, z` triples. -/
def vertexXY (data : List α) (i : ℕ) : vec2 α :=
  ⟨data.getD (3 * i) 0, data.getD (3 * i + 1) 0⟩

/-- Twice the signed area of the triangle `a b p`: positive when `p` is to the left of
the line from `a` to `b`. -/
def edge (a b p : vec2 α) : α := (b.x - a.x) * (p.y - a.y) - (b.y - a.y) * (p.x - a.x)

/-- The point `p` lies strictly inside the triangle `a b c`: it is strictly on the same
side of all three edges, taken in the order `a b`, `b c`, `c a`. -/
def strictlyInside {β : Type} [LinearOrderedField β] (a b c p : vec2 β) : Prop :=
  (0 < edge a b p ∧ 0 < edge b c p ∧ 0 < edge c a p) ∨
    (edge a b p < 0 ∧ edge b c p < 0 ∧ edge c a p < 0)

/-- The times read by frames `1, ..., n`, where frame `i` reads `t i`. -/
def readings (t : ℕ → α) (n : ℕ) : List α := (List.range n).map (fun i => t (i + 1))

/-! ## Exact real arithmetic: the orbit -/

/-- Squared length of the orbit position. -/
lemma dot_orbitPosition (angle : ℝ) :
    vec3.dot (orbitPosition ⟨Real.cos, Real.sin, Real.sqrt⟩ angle)
      (orbitPosition ⟨Real.cos, Real.sin, Real.sqrt⟩ angle) = 7 ^ 2 := by
  simp only [vec3.dot, orbitPosition, radius]
  linear_combination 49 * Real.cos_sq_add_sin_sq angle

/-- Squared length of the unnormalised viewing direction of the frame's `lookAt`. -/
lemma dot_lookAtDir (angle : ℝ) :
    vec3.dot (lookAtDir (orbitPosition ⟨Real.cos, Real.sin, Real.sqrt⟩ angle) ⟨0, 0, 0⟩)
      (lookAtDir (orbitPosition ⟨Real.cos, Real.sin, Real.sqrt⟩ angle) ⟨0, 0, 0⟩) = 7 ^ 2 := by
  simp only [vec3.dot, lookAtDir, vec3.sub, orbitPosition, radius]
  linear_combination 49 * Real.cos_sq_add_sin_sq angle

/-- The normalised viewing direction of the frame's `lookAt`. -/
lemma lookAtF_orbit (angle : ℝ) :
    lookAtF ⟨Real.cos, Real.sin, Real.sqrt⟩
      (orbitPosition ⟨Real.cos, Real.sin, Real.sqrt⟩ angle) ⟨0, 0, 0⟩
      = ⟨-Real.cos angle, 0, -Real.sin angle⟩ := by
  have h := dot_lookAtDir angle
  have h7 : Real.sqrt (7 ^ 2) = 7 := Real.sqrt_sq (by norm_num)
  simp only [lookAtF, vec3.normalize, vec3.inversesqrt, h, h7]
  simp only [lookAtDir, vec3.sub, vec3.smul, orbitPosition, radius]
  congr 1 <;> ring

/-- The unnormalised side vector of the frame's `lookAt`. -/
lemma lookAtSide_orbit (angle : ℝ) :
    lookAtSide ⟨Real.cos, Real.sin, Real.sqrt⟩
      (orbitPosition ⟨Real.cos, Real.sin, Real.sqrt⟩ angle) ⟨0, 0, 0⟩ ⟨0, 1, 0⟩
      = ⟨Real.sin angle, 0, -Real.cos angle⟩ := by
  simp only [lookAtSide, lookAtF_orbit, vec3.cross]
  congr 1 <;> ring

/-- Claim C1: in exact real arithmetic every frame, from whatever locals and time
reading, places the camera at `(7 cos angle, 0, 7 sin angle)` for its accumulated
angle, a point of the plane `y = 0` at distance exactly 7 from the origin, and sets
the view matrix to `lookAt` of that position, the origin and the up vector `(0,1,0)`;
the same two facts about the position hold for every real angle. -/
theorem camera_orbits_origin (s : LoopState ℝ) (currentTime : ℝ) :
    (frame ⟨Real.cos, Real.sin, Real.sqrt⟩ s currentTime).position
        = ⟨7 * Real.cos (frame ⟨Real.cos, Real.sin, Real.sqrt⟩ s currentTime).angle, 0,
           7 * Real.sin (frame ⟨Real.cos, Real.sin, Real.sqrt⟩ s currentTime).angle⟩
    ∧ (frame ⟨Real.cos, Real.sin, Real.sqrt⟩ s currentTime).position.y = 0
    ∧ vec3.length ⟨Real.cos, Real.sin, Real.sqrt⟩
        (frame ⟨Real.cos, Real.sin, Real.sqrt⟩ s currentTime).position = 7
    ∧ (frame ⟨Real.cos, Real.sin, Real.sqrt⟩ s currentTime).ViewMatrix
        = lookAt ⟨Real.cos, Real.sin, Real.sqrt⟩
            (frame ⟨Real.cos, Real.sin, Real.sqrt⟩ s currentTime).position
            ⟨0, 0, 0⟩ ⟨0, 1, 0⟩
    ∧ ∀ angle : ℝ,
        orbitPosition ⟨Real.cos, Real.sin, Real.sqrt⟩ angle
          = ⟨7 * Real.cos angle, 0, 7 * Real.sin angle⟩
        ∧ (orbitPosition ⟨Real.cos, Real.sin, Real.sqrt⟩ angle).y = 0
        ∧ Real.sqrt ((7 * Real.cos angle) ^ 2 + 0 ^ 2 + (7 * Real.sin angle) ^ 2) = 7
        ∧ vec3.length ⟨Real.cos, Real.sin, Real.sqrt⟩
            (orbitPosition ⟨Real.cos, Real.sin, Real.sqrt⟩ angle) = 7 := by
  have h7 : Real.sqrt (7 ^ 2) = 7 := Real.sqrt_sq (by norm_num)
  refine ⟨rfl, rfl, ?_, rfl, fun angle => ⟨rfl, rfl, ?_, ?_⟩⟩
  · simp only [frame, vec3.length, dot_orbitPosition, h7]
  · have e : (7 * Real.cos angle) ^ 2 + 0 ^ 2 + (7 * Real.sin angle) ^ 2 = 7 ^ 2 := by
      linear_combination 49 * Real.cos_sq_add_sin_sq angle
    rw [e, h7]
  · simp only [vec3.length, dot_orbitPosition, h7]

/-- Claim C8: for every real angle, with the eye on the orbit, the origin as target and
`(0,1,0)` as up, the vector `target - eye` that `lookAt` normalises has length 7 and the
cross product of the normalised viewing direction with up, which `lookAt` normalises
next, has length 1; so the square roots by which the two normalisations divide are not
zero. -/
theorem lookAt_never_degenerates (angle : ℝ) :
    vec3.length ⟨Real.cos, Real.sin, Real.sqrt⟩
        (vec3.sub ⟨0, 0, 0⟩ (orbitPosition ⟨Real.cos, Real.sin, Real.sqrt⟩ angle)) = 7
    ∧ vec3.length ⟨Real.cos, Real.sin, Real.sqrt⟩
        (vec3.cross
          (vec3.normalize ⟨Real.cos, Real.sin, Real.sqrt⟩
            (vec3.sub ⟨0, 0, 0⟩ (orbitPosition ⟨Real.cos, Real.sin, Real.sqrt⟩ angle)))
          ⟨0, 1, 0⟩) = 1
    ∧ Real.sqrt (vec3.dot
          (lookAtDir (orbitPosition ⟨Real.cos, Real.sin, Real.sqrt⟩ angle) ⟨0, 0, 0⟩)
          (lookAtDir (orbitPosition ⟨Real.cos, Real.sin, Real.sqrt⟩ angle) ⟨0, 0, 0⟩)) ≠ 0
    ∧ Real.sqrt (vec3.dot
          (lookAtSide ⟨Real.cos, Real.sin, Real.sqrt⟩
            (orbitPosition ⟨Real.cos, Real.sin, Real.sqrt⟩ angle) ⟨0, 0, 0⟩ ⟨0, 1, 0⟩)
          (lookAtSide ⟨Real.cos, Real.sin, Real.sqrt⟩
            (orbitPosition ⟨Real.cos, Real.sin, Real.sqrt⟩ angle) ⟨0, 0, 0⟩ ⟨0, 1, 0⟩)) ≠ 0 := by
  have h7 : Real.sqrt (7 ^ 2) = 7 := Real.sqrt_sq (by norm_num)
  have hd := dot_lookAtDir angle
  have hs := lookAtSide_orbit angle
  have hside : vec3.dot (⟨Real.sin angle, 0, -Real.cos angle⟩ : vec3 ℝ)
      ⟨Real.sin angle, 0, -Real.cos angle⟩ = 1 := by
    simp only [vec3.dot]
    linear_combination Real.sin_sq_add_cos_sq angle
  simp only [lookAtDir] at hd
  simp only [lookAtSide, lookAtF, lookAtDir] at hs
  refine ⟨?_, ?_, ?_, ?_⟩
  · simp only [vec3.length, hd, h7]
  · simp only [vec3.length, hs, hside, Real.sqrt_one]
  · simp only [lookAtDir, hd, h7]; norm_num
  · simp only [lookAtSide, lookAtF, lookAtDir, hs, hside, Real.sqrt_one]; norm_num

/-! ## The accumulated angle -/

/-- One more frame at the end of a run. -/
lemma runFrames_append (L : Libm α) (s : LoopState α) (ts : List α) (t : α) :
    runFrames L s (ts ++ [t]) = frame L (runFrames L s ts) t := by
  simp [runFrames, List.foldl_append]

/-- The readings of `n + 1` frames are those of `n` frames and `t (n + 1)`. -/
lemma readings_succ {β : Type} (t : ℕ → β) (n : ℕ) :
    readings t (n + 1) = readings t n ++ [t (n + 1)] := by
  simp [readings, List.range_succ]

/-- Across any run of frames the difference `angle - speed * lastTime` keeps its value,
and after a non-empty run `lastTime` is the last reading. -/
lemma runFrames_angle (L : Libm α) (s : LoopState α) (t : ℕ → α) (n : ℕ) :
    (runFrames L s (readings t n)).angle
        = s.angle + ((runFrames L s (readings t n)).lastTime - s.lastTime)
      ∧ (1 ≤ n → (runFrames L s (readings t n)).lastTime = t n) := by
  induction n with
  | zero => simp [readings, runFrames]
  | succ k ih =>
    rw [readings_succ, runFrames_append]
    refine ⟨?_, fun _ => rfl⟩
    simp only [frame, speed, ih.1]
    ring

/-- Claim C7: in exact real arithmetic, for every `n ≥ 1` and all time readings `t 0`
(the initial `lastTime`) and `t 1, ..., t n` (one per frame), the angle after frame `n`
is `speed * (t n - t 0) = t n - t 0`, the camera of frame `n` is placed with that
angle, and `lastTime` after frame `n` is `t n`. -/
theorem animation_frame_rate_independent (L : Libm ℝ) (vm0 : mat4 ℝ) (t : ℕ → ℝ) (n : ℕ)
    (hn : 1 ≤ n) :
    (runFrames L (initialState vm0 (t 0)) (readings t n)).angle = speed * (t n - t 0)
    ∧ (runFrames L (initialState vm0 (t 0)) (readings t n)).angle = t n - t 0
    ∧ (runFrames L (initialState vm0 (t 0)) (readings t n)).position
        = orbitPosition L (t n - t 0)
    ∧ (runFrames L (initialState vm0 (t 0)) (readings t n)).lastTime = t n := by
  obtain ⟨h1, h2⟩ := runFrames_angle L (initialState vm0 (t 0)) t n
  have hl := h2 hn
  have ha : (runFrames L (initialState vm0 (t 0)) (readings t n)).angle = t n - t 0 := by
    rw [h1, hl]; simp [initialState]
  refine ⟨by rw [ha]; simp [speed], ha, ?_, hl⟩
  obtain ⟨k, rfl⟩ : ∃ k, n = k + 1 := ⟨n - 1, by omega⟩
  rw [readings_succ, runFrames_append] at ha ⊢
  have hp : (frame L (runFrames L (initialState vm0 (t 0)) (readings t k)) (t (k + 1))).position
      = orbitPosition L
          (frame L (runFrames L (initialState vm0 (t 0)) (readings t k)) (t (k + 1))).angle :=
    rfl
  rw [hp, ha]

/-- Witness for C7: three frames reading the times 1, 2, 3 after an initial reading 0. -/
theorem animation_frame_rate_independent_witness :
    1 ≤ 3 ∧
    (runFrames ⟨Real.cos, Real.sin, Real.sqrt⟩
        (initialState 0 ((fun i : ℕ => (i : ℝ)) 0)) (readings (fun i : ℕ => (i : ℝ)) 3)).angle
      = (fun i : ℕ => (i : ℝ)) 3 - (fun i : ℕ => (i : ℝ)) 0 :=
  ⟨by decide,
    (animation_frame_rate_independent ⟨Real.cos, Real.sin, Real.sqrt⟩ 0
      (fun i : ℕ => (i : ℝ)) 3 (by decide)).2.1⟩

/-! ## The two triangles -/

/-- Claim C3: in exact rational arithmetic the `x`, `y` coordinates of the two vertex
buffers are the triangles `(1,-1), (-1,1), (3/10,-1)` and `(-1,-1), (1,1), (-3/10,-1)`,
and the point `(0, -1/2)` lies strictly inside both; so the triangles overlap. -/
theorem triangles_overlap :
    (vertexXY (g_vertex_buffer_data_first : List ℚ) 0 = ⟨1, -1⟩
      ∧ vertexXY (g_vertex_buffer_data_first : List ℚ) 1 = ⟨-1, 1⟩
      ∧ vertexXY (g_vertex_buffer_data_first : List ℚ) 2 = ⟨3 / 10, -1⟩)
    ∧ (vertexXY (g_vertex_buffer_data_second : List ℚ) 0 = ⟨-1, -1⟩
      ∧ vertexXY (g_vertex_buffer_data_second : List ℚ) 1 = ⟨1, 1⟩
      ∧ vertexXY (g_vertex_buffer_data_second : List ℚ) 2 = ⟨-(3 / 10), -1⟩)
    ∧ strictlyInside (vertexXY (g_vertex_buffer_data_first : List ℚ) 0)
        (vertexXY g_vertex_buffer_data_first 1) (vertexXY g_vertex_buffer_data_first 2)
        ⟨0, -(1 / 2)⟩
    ∧ strictlyInside (vertexXY (g_vertex_buffer_data_second : List ℚ) 0)
        (vertexXY g_vertex_buffer_data_second 1) (vertexXY g_vertex_buffer_data_second 2)
        ⟨0, -(1 / 2)⟩
    ∧ ∃ p : vec2 ℚ,
        strictlyInside (vertexXY (g_vertex_buffer_data_first : List ℚ) 0)
          (vertexXY g_vertex_buffer_data_first 1) (vertexXY g_vertex_buffer_data_first 2) p
        ∧ strictlyInside (vertexXY (g_vertex_buffer_data_second : List ℚ) 0)
          (vertexXY g_vertex_buffer_data_second 1) (vertexXY g_vertex_buffer_data_second 2) p := by
  have h1 : strictlyInside (vertexXY (g_vertex_buffer_data_first : List ℚ) 0)
      (vertexXY g_vertex_buffer_data_first 1) (vertexXY g_vertex_buffer_data_first 2)
      ⟨0, -(1 / 2)⟩ := by
    left
    simp only [vertexXY, g_vertex_buffer_data_first, edge]
    norm_num
  have h2 : strictlyInside (vertexXY (g_vertex_buffer_data_second : List ℚ) 0)
      (vertexXY g_vertex_buffer_data_second 1) (vertexXY g_vertex_buffer_data_second 2)
      ⟨0, -(1 / 2)⟩ := by
    right
    simp only [vertexXY, g_vertex_buffer_data_second, edge]
    norm_num
  refine ⟨⟨?_, ?_, ?_⟩, ⟨?_, ?_, ?_⟩, h1, h2, ⟨⟨0, -(1 / 2)⟩, h1, h2⟩⟩ <;>
    simp [vertexXY, g_vertex_buffer_data_first, g_vertex_buffer_data_second]

/-! ## The projection -/

/-- Claim C6 against the code: the comment on line 81 announces a 4:3 ratio, but the
aspect-ratio argument that line 82 passes to `perspective` is the quotient of the
literals 16 and 9, which is not `4/3`; `Projection` is `perspective` applied to that
argument. -/
theorem aspect_ne_four_thirds :
    (aspect : ℚ) = 16 / 9
    ∧ (aspect : ℚ) ≠ 4 / 3
    ∧ ∀ (perspective : ℚ → ℚ → ℚ → ℚ → mat4 ℚ) (radians : ℚ → ℚ),
        Projection perspective radians = perspective (radians fovDegrees) (16 / 9) zNear zFar := by
  refine ⟨rfl, ?_, fun _ _ => rfl⟩
  norm_num [aspect]

/-! ## What a frame depends on -/

/-- Claim C4, as stated, fails: two sets of locals with the same matrices, the same
position and the same `lastTime`, and the same time reading in the frame, give
different view matrices when the angle left behind differs (`0` against `π`); likewise
when only the `lastTime` left behind differs. -/
theorem view_depends_on_angle_left_behind :
    (frame ⟨Real.cos, Real.sin, Real.sqrt⟩
        { position := ⟨0, 0, 7⟩, angle := 0, ViewMatrix := 0, lastTime := 0 } 0).ViewMatrix
      ≠ (frame ⟨Real.cos, Real.sin, Real.sqrt⟩
        { position := ⟨0, 0, 7⟩, angle := Real.pi, ViewMatrix := 0, lastTime := 0 } 0).ViewMatrix
    ∧ (frame ⟨Real.cos, Real.sin, Real.sqrt⟩
        { position := ⟨0, 0, 7⟩, angle := 0, ViewMatrix := 0, lastTime := 0 } 0).ViewMatrix
      ≠ (frame ⟨Real.cos, Real.sin, Real.sqrt⟩
        { position := ⟨0, 0, 7⟩, angle := 0, ViewMatrix := 0, lastTime := -Real.pi }
          0).ViewMatrix := by
  have key : ∀ s : LoopState ℝ, ∀ t : ℝ,
      (frame ⟨Real.cos, Real.sin, Real.sqrt⟩ s t).ViewMatrix 2 0
        = Real.cos (s.angle + (t - s.lastTime) * speed) := by
    intro s t
    simp [frame, lookAt, lookAtF_orbit]
  constructor
  · intro h
    have h2 := congrFun (congrFun h 2) 0
    rw [key, key] at h2
    simp [speed] at h2
    norm_num at h2
  · intro h
    have h2 := congrFun (congrFun h 2) 0
    rw [key, key] at h2
    simp [speed] at h2
    norm_num at h2

/-- Claim C4, amended: the angle and `lastTime` persist from one frame to the next, and
the view matrix and `MVP` a frame draws with are determined by the angle and `lastTime`
left behind and the time read inside the frame: the view matrix is `lookAt` of the orbit
position for `angle + (currentTime - lastTime) * speed`. The position and view matrix
left behind are overwritten without being read. The frame leaves behind that new angle
and, as `lastTime`, the time it read. -/
theorem frame_reads_angle_and_lastTime (L : Libm α) (Proj : mat4 α) (p1 p2 : vec3 α)
    (vm1 vm2 : mat4 α) (angle lastTime currentTime : α) :
    (frame L { position := p1, angle := angle, ViewMatrix := vm1, lastTime := lastTime }
        currentTime).ViewMatrix
      = lookAt L (orbitPosition L (angle + (currentTime - lastTime) * speed))
          ⟨0, 0, 0⟩ ⟨0, 1, 0⟩
    ∧ (frame L { position := p1, angle := angle, ViewMatrix := vm1, lastTime := lastTime }
        currentTime).ViewMatrix
      = (frame L { position := p2, angle := angle, ViewMatrix := vm2, lastTime := lastTime }
        currentTime).ViewMatrix
    ∧ MVP Proj (frame L
          { position := p1, angle := angle, ViewMatrix := vm1, lastTime := lastTime }
          currentTime)
      = MVP Proj (frame L
          { position := p2, angle := angle, ViewMatrix := vm2, lastTime := lastTime }
          currentTime)
    ∧ (frame L { position := p1, angle := angle, ViewMatrix := vm1, lastTime := lastTime }
        currentTime).angle = angle + (currentTime - lastTime) * speed
    ∧ (frame L { position := p1, angle := angle, ViewMatrix := vm1, lastTime := lastTime }
        currentTime).lastTime = currentTime :=
  ⟨rfl, rfl, rfl, rfl, rfl⟩

/-! ## The draw calls of a frame -/

/-- Claim C2: every loop iteration, from whatever locals, time reading and GL state,
issues the calls `frameCmds` with `MVP = Projection * ViewMatrix * Model`, where
`ViewMatrix` is the `lookAt` computed in that iteration and `Model` is the identity.
Exactly two of them are draw calls, each `glDrawArrays(GL_TRIANGLES, 0, 3)`. The first is
issued with `redTriangle` in use, `vertexbuffer[0]` attached to the enabled attribute 0
and `MVP` in the uniform `redVertexes`; the second with `blueTriangle` in use,
`vertexbuffer[1]` attached to attribute 0 and the same `MVP` in the uniform
`blueVertexes`. -/
theorem frame_draws_both_triangles (L : Libm α) (perspective : α → α → α → α → mat4 α)
    (radians : α → α) (N : Names) (s : LoopState α) (currentTime : α) (ts : List α)
    (g : GLState α) :
    loopCmds L (Projection perspective radians) N s (currentTime :: ts)
      = frameCmds N (Projection perspective radians
            * lookAt L (orbitPosition L (frame L s currentTime).angle) ⟨0, 0, 0⟩ ⟨0, 1, 0⟩
            * 1)
          ++ loopCmds L (Projection perspective radians) N (frame L s currentTime) ts
    ∧ (Model : mat4 α) = 1
    ∧ (frame L s currentTime).ViewMatrix
        = lookAt L (orbitPosition L (frame L s currentTime).angle) ⟨0, 0, 0⟩ ⟨0, 1, 0⟩
    ∧ (iterationCmds L (Projection perspective radians) N s currentTime).filter Cmd.isDraw
        = [Cmd.glDrawArrays DrawMode.GL_TRIANGLES 0 3,
           Cmd.glDrawArrays DrawMode.GL_TRIANGLES 0 3]
    ∧ ∃ d1 d2 : DrawCall α,
        (execAll g (iterationCmds L (Projection perspective radians) N s currentTime)).draws
          = g.draws ++ [d1, d2]
        ∧ (d1.mode = DrawMode.GL_TRIANGLES ∧ d1.first = 0 ∧ d1.count = 3)
        ∧ (d2.mode = DrawMode.GL_TRIANGLES ∧ d2.first = 0 ∧ d2.count = 3)
        ∧ d1.program = N.redTriangle
        ∧ d1.attribEnabled 0 = true
        ∧ d1.attribBuffer 0 = N.vertexbuffer0
        ∧ d1.uniform N.redVertexes
            = some (Projection perspective radians * (frame L s currentTime).ViewMatrix * Model)
        ∧ d2.program = N.blueTriangle
        ∧ d2.attribEnabled 0 = true
        ∧ d2.attribBuffer 0 = N.vertexbuffer1
        ∧ d2.uniform N.blueVertexes
            = some (Projection perspective radians * (frame L s currentTime).ViewMatrix * Model) := by
  refine ⟨rfl, rfl, rfl, ?_, ?_⟩
  · simp [iterationCmds, frameCmds, Cmd.isDraw]
  · simp only [execAll, iterationCmds, frameCmds, List.foldl_cons, List.foldl_nil, exec,
      List.append_assoc, List.singleton_append]
    refine ⟨_, _, rfl, ?_⟩
    simp [MVP]

/-! ## The lifecycle of the GL objects -/

/-- A position in `A ++ E` is a position in `A` or a position in `E`. -/
lemma split_append {β : Type} {A E pre post : List β} {c : β}
    (h : A ++ E = pre ++ c :: post) :
    (∃ rest, A = pre ++ c :: rest ∧ post = rest ++ E)
      ∨ (∃ e, pre = A ++ e ∧ E = e ++ c :: post) := by
  rcases List.append_eq_append_iff.mp h with ⟨a, h1, h2⟩ | ⟨b, h1, h2⟩
  · exact Or.inr ⟨a, h1, h2⟩
  · cases b with
    | nil =>
      refine Or.inr ⟨[], ?_, ?_⟩
      · simpa using h1.symm
      · simpa using h2.symm
    | cons x rest =>
      simp only [List.cons_append, List.cons.injEq] at h2
      obtain ⟨rfl, rfl⟩ := h2
      exact Or.inl ⟨rest, h1, rfl⟩

/-- The positions of a list of five elements. -/
lemma split_five {β : Type} {a1 a2 a3 a4 a5 c : β} {e post : List β}
    (h : [a1, a2, a3, a4, a5] = e ++ c :: post) :
    (e = [] ∧ c = a1 ∧ post = [a2, a3, a4, a5])
      ∨ (e = [a1] ∧ c = a2 ∧ post = [a3, a4, a5])
      ∨ (e = [a1, a2] ∧ c = a3 ∧ post = [a4, a5])
      ∨ (e = [a1, a2, a3] ∧ c = a4 ∧ post = [a5])
      ∨ (e = [a1, a2, a3, a4] ∧ c = a5 ∧ post = []) := by
  rcases e with _ | ⟨x1, _ | ⟨x2, _ | ⟨x3, _ | ⟨x4, _ | ⟨x5, e⟩⟩⟩⟩⟩ <;>
    simp at h <;> simp [h]

/-- No call of a frame creates, deletes or terminates. -/
lemma frameCmds_quiet {β : Type} (N : Names) (mvp : mat4 β) :
    ∀ c ∈ frameCmds N mvp,
      c.creates = [] ∧ c.deletes = [] ∧ c.isDelete = false ∧ c.isTerminate = false := by
  intro c hc
  simp only [frameCmds, List.mem_cons, List.mem_singleton, List.not_mem_nil, or_false] at hc
  rcases hc with h | h | h | h | h | h | h | h | h | h | h | h | h | h | h | h <;>
    subst h <;> exact ⟨rfl, rfl, rfl, rfl⟩

/-- No call of the loop creates, deletes or terminates. -/
lemma loopCmds_quiet (L : Libm α) (Proj : mat4 α) (N : Names) (ts : List α) :
    ∀ (s : LoopState α), ∀ c ∈ loopCmds L Proj N s ts,
      c.creates = [] ∧ c.deletes = [] ∧ c.isDelete = false ∧ c.isTerminate = false := by
  induction ts with
  | nil => intro s c hc; simp [loopCmds] at hc
  | cons t ts ih =>
    intro s c hc
    simp only [loopCmds, List.mem_append] at hc
    rcases hc with hc | hc
    · exact frameCmds_quiet N _ c hc
    · exact ih _ c hc

/-- No call of the setup deletes, draws or terminates. -/
lemma setupCmds_quiet (N : Names) :
    ∀ c ∈ (setupCmds N : List (Cmd α)),
      c.deletes = [] ∧ c.isDelete = false ∧ c.isTerminate = false ∧ c.isDraw = false := by
  intro c hc
  simp only [setupCmds, List.mem_cons, List.mem_singleton, List.not_mem_nil, or_false] at hc
  rcases hc with h | h | h | h | h | h | h | h | h | h | h | h | h | h | h | h <;>
    subst h <;> exact ⟨rfl, rfl, rfl, rfl⟩

/-- A list of calls none of which deletes has deleted nothing. -/
lemma flatMap_deletes_nil {β : Type} {cs : List (Cmd β)} (h : ∀ c ∈ cs, c.deletes = []) :
    cs.flatMap Cmd.deletes = [] := by
  induction cs with
  | nil => rfl
  | cons c cs ih =>
    simp only [List.flatMap_cons, h c (List.mem_cons_self _ _), List.nil_append]
    exact ih (fun d hd => h d (List.mem_cons_of_mem _ hd))

/-- A list of calls none of which creates has created nothing. -/
lemma flatMap_creates_nil {β : Type} {cs : List (Cmd β)} (h : ∀ c ∈ cs, c.creates = []) :
    cs.flatMap Cmd.creates = [] := by
  induction cs with
  | nil => rfl
  | cons c cs ih =>
    simp only [List.flatMap_cons, h c (List.mem_cons_self _ _), List.nil_append]
    exact ih (fun d hd => h d (List.mem_cons_of_mem _ hd))

/-- The first iteration of the loop contains a draw call. -/
lemma loopCmds_has_draw (L : Libm α) (Proj : mat4 α) (N : Names) (s : LoopState α) (t : α)
    (ts : List α) : ∃ d ∈ loopCmds L Proj N s (t :: ts), d.isDraw = true := by
  refine ⟨Cmd.glDrawArrays DrawMode.GL_TRIANGLES 0 3, ?_, rfl⟩
  simp [loopCmds, iterationCmds, frameCmds]

/-- Everything before the cleanup: no call deletes or terminates. -/
lemma beforeCleanup_quiet (L : Libm α) (Proj : mat4 α) (N : Names) (s : LoopState α)
    (ts : List α) :
    ∀ c ∈ setupCmds N ++ loopCmds L Proj N s ts,
      c.deletes = [] ∧ c.isDelete = false ∧ c.isTerminate = false := by
  intro c hc
  rcases List.mem_append.mp hc with hc | hc
  · obtain ⟨h1, h2, h3, _⟩ := setupCmds_quiet N c hc
    exact ⟨h1, h2, h3⟩
  · obtain ⟨_, h1, h2, h3⟩ := loopCmds_quiet L Proj N ts s c hc
    exact ⟨h1, h2, h3⟩

/-- The objects created by a run of `main`. -/
lemma mainCmds_creates (L : Libm α) (perspective : α → α → α → α → mat4 α)
    (radians : α → α) (N : Names) (vm0 : mat4 α) (t0 t1 : α) (ts : List α) :
    (mainCmds L perspective radians N vm0 t0 t1 ts).flatMap Cmd.creates
      = [Obj.vertexArray N.VertexArrayID, Obj.program N.redTriangle,
         Obj.program N.blueTriangle, Obj.buffer N.vertexbuffer0,
         Obj.buffer N.vertexbuffer1] := by
  have hl := flatMap_creates_nil (fun c hc =>
    (loopCmds_quiet L (Projection perspective radians) N (t1 :: ts)
      (initialState vm0 t0) c hc).1)
  simp only [mainCmds, List.flatMap_append, hl, List.append_nil]
  simp [setupCmds, cleanupCmds, Cmd.creates]

/-- The objects deleted by a run of `main`, in the order of deletion. -/
lemma mainCmds_deletes (L : Libm α) (perspective : α → α → α → α → mat4 α)
    (radians : α → α) (N : Names) (vm0 : mat4 α) (t0 t1 : α) (ts : List α) :
    (mainCmds L perspective radians N vm0 t0 t1 ts).flatMap Cmd.deletes
      = [Obj.buffer N.vertexbuffer0, Obj.buffer N.vertexbuffer1,
         Obj.program N.redTriangle, Obj.program N.blueTriangle,
         Obj.vertexArray N.VertexArrayID] := by
  have hl := flatMap_deletes_nil (fun c hc =>
    (beforeCleanup_quiet L (Projection perspective radians) N (initialState vm0 t0)
      (t1 :: ts) c hc).1)
  simp only [mainCmds, List.flatMap_append] at hl ⊢
  rw [hl]
  simp [cleanupCmds, Cmd.deletes]

/-- Claim C5: on the normal exit path, with the two programs and the two buffers being
distinct objects, the objects `main` creates are the vertex array, the two programs and
the two vertex buffers, and each is deleted exactly once; every deleting call has a draw
call before it, no draw call after it, `glfwTerminate` after it and not before it; no
call names an object deleted earlier, and once anything has been deleted only deleting
calls and `glfwTerminate` follow, none of which is a call of the loop. -/
theorem resources_created_used_destroyed (L : Libm α)
    (perspective : α → α → α → α → mat4 α) (radians : α → α) (N : Names) (vm0 : mat4 α)
    (t0 t1 : α) (ts : List α)
    (hprog : N.redTriangle ≠ N.blueTriangle) (hbuf : N.vertexbuffer0 ≠ N.vertexbuffer1) :
    (mainCmds L perspective radians N vm0 t0 t1 ts).flatMap Cmd.creates
        = [Obj.vertexArray N.VertexArrayID, Obj.program N.redTriangle,
           Obj.program N.blueTriangle, Obj.buffer N.vertexbuffer0,
           Obj.buffer N.vertexbuffer1]
    ∧ (∀ o ∈ (mainCmds L perspective radians N vm0 t0 t1 ts).flatMap Cmd.creates,
        ((mainCmds L perspective radians N vm0 t0 t1 ts).flatMap Cmd.deletes).count o = 1)
    ∧ (∀ pre c post, mainCmds L perspective radians N vm0 t0 t1 ts = pre ++ c :: post →
        c.isDelete = true →
          (∃ d ∈ pre, d.isDraw = true) ∧ (∀ d ∈ post, d.isDraw = false)
            ∧ (∃ d ∈ post, d.isTerminate = true) ∧ (∀ d ∈ pre, d.isTerminate = false))
    ∧ (∀ pre c post, mainCmds L perspective radians N vm0 t0 t1 ts = pre ++ c :: post →
        (∀ o ∈ c.uses, o ∉ pre.flatMap Cmd.deletes)
          ∧ (pre.flatMap Cmd.deletes ≠ [] → c.isDelete = true ∨ c.isTerminate = true))
    ∧ (∀ c ∈ loopCmds L (Projection perspective radians) N (initialState vm0 t0) (t1 :: ts),
        c.isDelete = false ∧ c.isTerminate = false) := by
  have hA := beforeCleanup_quiet L (Projection perspective radians) N (initialState vm0 t0)
    (t1 :: ts)
  have hAdel := flatMap_deletes_nil (fun c hc => (hA c hc).1)
  have hprog2 : N.blueTriangle ≠ N.redTriangle := fun h => hprog h.symm
  have hbuf2 : N.vertexbuffer1 ≠ N.vertexbuffer0 := fun h => hbuf h.symm
  refine ⟨mainCmds_creates L perspective radians N vm0 t0 t1 ts, ?_, ?_, ?_, ?_⟩
  · rw [mainCmds_creates, mainCmds_deletes]
    intro o ho
    simp only [List.mem_cons, List.mem_singleton, List.not_mem_nil, or_false] at ho
    rcases ho with rfl | rfl | rfl | rfl | rfl <;>
      simp [List.count_cons, hprog, hprog2, hbuf, hbuf2]
  · intro pre c post h hc
    rcases split_append h with ⟨rest, h1, _⟩ | ⟨e, h1, h2⟩
    · have hmem : c ∈ setupCmds N ++ loopCmds L (Projection perspective radians) N
          (initialState vm0 t0) (t1 :: ts) := by
        rw [h1]; simp
      rw [(hA c hmem).2.1] at hc
      exact absurd hc (by decide)
    · obtain ⟨d, hd, hdraw⟩ := loopCmds_has_draw L (Projection perspective radians) N
        (initialState vm0 t0) t1 ts
      have hpreT : ∀ d ∈ setupCmds N ++ loopCmds L (Projection perspective radians) N
          (initialState vm0 t0) (t1 :: ts), d.isTerminate = false := fun d hd => (hA d hd).2.2
      refine ⟨⟨d, ?_, hdraw⟩, ?_⟩
      · rw [h1]; simp [hd]
      · rcases split_five h2 with ⟨he, rfl, rfl⟩ | ⟨he, rfl, rfl⟩ | ⟨he, rfl, rfl⟩
            | ⟨he, rfl, rfl⟩ | ⟨he, rfl, rfl⟩
        all_goals first
          | (exfalso
             simp [Cmd.isDelete] at hc
             done)
          | (have heT : ∀ x ∈ e, x.isTerminate = false := by
               rw [he]; simp [Cmd.isTerminate]
             subst h1
             refine ⟨by simp [Cmd.isDraw], ⟨Cmd.glfwTerminate, by simp, rfl⟩, ?_⟩
             intro x hx
             rcases List.mem_append.mp hx with hx | hx
             · exact hpreT x hx
             · exact heT x hx)
  · intro pre c post h
    rcases split_append h with ⟨rest, h1, _⟩ | ⟨e, h1, h2⟩
    · have hpre : pre.flatMap Cmd.deletes = [] := by
        apply flatMap_deletes_nil
        intro d hd
        exact (hA d (by rw [h1]; simp [hd])).1
      rw [hpre]
      exact ⟨fun o _ => List.not_mem_nil o, fun hne => absurd rfl hne⟩
    · have hpre : pre.flatMap Cmd.deletes = e.flatMap Cmd.deletes := by
        rw [h1, List.flatMap_append, hAdel, List.nil_append]
      rw [hpre]
      rcases split_five h2 with ⟨rfl, rfl, rfl⟩ | ⟨rfl, rfl, rfl⟩ | ⟨rfl, rfl, rfl⟩
          | ⟨rfl, rfl, rfl⟩ | ⟨rfl, rfl, rfl⟩ <;>
        simp [Cmd.uses, Cmd.deletes, Cmd.isDelete, Cmd.isTerminate, hprog, hprog2]
  · intro c hc
    obtain ⟨_, _, h1, h2⟩ := loopCmds_quiet L (Projection perspective radians) N (t1 :: ts)
      (initialState vm0 t0) c hc
    exact ⟨h1, h2⟩

/-- Witness for C5: a run of two frames with the objects named 1 and 2. -/
theorem resources_created_used_destroyed_witness :
    (1 : ℕ) ≠ 2 ∧ (1 : ℕ) ≠ 2 ∧
    ∀ o ∈ (mainCmds (⟨id, id, id⟩ : Libm ℚ) (fun _ _ _ _ => 1) id
              ⟨1, 1, 2, 0, 0, 1, 2⟩ 0 0 1 [2]).flatMap Cmd.creates,
      ((mainCmds (⟨id, id, id⟩ : Libm ℚ) (fun _ _ _ _ => 1) id
              ⟨1, 1, 2, 0, 0, 1, 2⟩ 0 0 1 [2]).flatMap Cmd.deletes).count o = 1 :=
  ⟨by decide, by decide,
    (resources_created_used_destroyed (⟨id, id, id⟩ : Libm ℚ) (fun _ _ _ _ => 1) id
      ⟨1, 1, 2, 0, 0, 1, 2⟩ 0 0 1 [2] (by decide) (by decide)).2.1⟩

end TwoTriangles
